import Mathlib

/-!
Verification of the syscall-policy and trace-supervisor core of the
`simlib` sandbox (`src/include/sandbox.h`, `src/src/process.cc`)
against its natural-language specification.

Machine integers: syscall numbers travel through the code as C `int` /
`long` values and never overflow in the ranges involved, so they are
modelled as `Int`.  The architecture tag is the C `int8_t` field
`CallbackBase::arch`, modelled as `Int` (initially `-1`).
-/

namespace Simlib

/-- Constant `ARCH_i386` from `src/include/process.h:58`. -/
def ARCH_i386 : Int := 0

/-- Constant `ARCH_x86_64` from `src/include/process.h:59`. -/
def ARCH_x86_64 : Int := 1

/-- Modelled from the spec: the helper `binary_search` (from `utilities.h`,
not under `src/`) — "Allowed-syscall arrays are sorted ascending; policy
lookup uses binary search".  Standard half-open-interval binary search;
the interval length shrinks at every step, so a fuel of the initial
length is enough and the recursion is structural on the fuel. -/
def bsearchAux (a : List Int) (x : Int) : Nat → Nat → Nat → Bool
  | 0, _, _ => false
  | fuel + 1, lo, hi =>
    if lo < hi then
      let mid := (lo + hi) / 2
      let v := a.getD mid 0
      if v = x then true
      else if v < x then bsearchAux a x fuel (mid + 1) hi
      else bsearchAux a x fuel lo mid
    else false

/-- Modelled from the spec: membership test by binary search
(`binary_search(syscall_list, syscall)` in `sandbox.h:494`). -/
def binary_search (a : List Int) (x : Int) : Bool :=
  bsearchAux a x a.length 0 a.length

/-- Modelled from the spec: `meta::is_sorted` (from `meta.h`, not under
`src/`), used by the `static_assert`s at `sandbox.h:298-299`; the spec says
the arrays are "sorted ascending". -/
def is_sorted : List Int → Bool
  | [] => true
  | [_] => true
  | a :: b :: rest => decide (a < b) && is_sorted (b :: rest)

/-- The i386 allow-list `allowed_syscalls_i386` (78 entries),
`src/include/sandbox.h:151-230`. -/
def allowed_syscalls_i386 : List Int := [
  1, 3, 4, 6, 13, 20, 24, 27, 29, 45, 47, 49, 50, 67, 72, 73, 76, 77, 78,
  82, 90, 91, 100, 108, 118, 125, 142, 143, 144, 145, 146, 148, 150, 151,
  152, 153, 162, 163, 168, 174, 175, 176, 177, 179, 180, 181, 184, 187,
  191, 192, 197, 199, 200, 201, 202, 219, 224, 231, 232, 239, 240, 244,
  250, 252, 265, 266, 267, 269, 272, 308, 309, 312, 323, 328, 333, 334,
  355, 376]

/-- The x86_64 allow-list `allowed_syscalls_x86_64` (64 entries),
`src/include/sandbox.h:231-296`. -/
def allowed_syscalls_x86_64 : List Int := [
  0, 1, 3, 5, 7, 9, 10, 11, 12, 13, 14, 17, 18, 19, 20, 23, 25, 26, 28,
  34, 35, 37, 39, 40, 60, 73, 74, 75, 96, 97, 98, 102, 104, 107, 108,
  125, 127, 128, 130, 138, 149, 150, 151, 152, 186, 193, 196, 201, 202,
  211, 221, 228, 229, 230, 231, 270, 271, 274, 284, 290, 295, 296, 318,
  325]

/-- The i386 allow-list exactly as printed in section 6 of the spec
(the 78-entry array), written from the spec text. -/
def spec_allow_i386 : List Int := [
  1, 3, 4, 6, 13, 20, 24, 27, 29, 45, 47, 49, 50, 67, 72, 73, 76, 77, 78,
  82, 90, 91, 100, 108, 118, 125, 142, 143, 144, 145, 146, 148, 150, 151,
  152, 153, 162, 163, 168, 174, 175, 176, 177, 179, 180, 181, 184, 187,
  191, 192, 197, 199, 200, 201, 202, 219, 224, 231, 232, 239, 240, 244,
  250, 252, 265, 266, 267, 269, 272, 308, 309, 312, 323, 328, 333, 334,
  355, 376]

/-- The x86_64 allow-list exactly as printed in section 6 of the spec
(the 64-entry array), written from the spec text. -/
def spec_allow_x86_64 : List Int := [
  0, 1, 3, 5, 7, 9, 10, 11, 12, 13, 14, 17, 18, 19, 20, 23, 25, 26, 28,
  34, 35, 37, 39, 40, 60, 73, 74, 75, 96, 97, 98, 102, 104, 107, 108,
  125, 127, 128, 130, 138, 149, 150, 151, 152, 186, 193, 196, 201, 202,
  211, 221, 228, 229, 230, 231, 270, 271, 274, 284, 290, 295, 296, 318,
  325]

/-- Structure `Sandbox::DefaultCallback::Pair` (`sandbox.h:103-106`): a syscall
number together with its remaining-calls counter. -/
structure Pair where
  syscall : Int
  limit : Int
deriving DecidableEq, Repr

/-- Initial contents of `limited_syscalls[0]` (i386),
`src/include/sandbox.h:112-118`. -/
def limited_syscalls_i386 : List Pair :=
  [⟨11, 1⟩, ⟨33, 1⟩, ⟨85, 1⟩, ⟨122, 1⟩, ⟨243, 1⟩]

/-- Initial contents of `limited_syscalls[1]` (x86_64),
`src/include/sandbox.h:119-126`. -/
def limited_syscalls_x86_64 : List Pair :=
  [⟨21, 1⟩, ⟨59, 1⟩, ⟨63, 1⟩, ⟨89, 1⟩, ⟨158, 1⟩, ⟨205, 1⟩]

/-- The mutable state of `Sandbox::DefaultCallback` (fields at
`sandbox.h:26` and `sandbox.h:111-132`): the inherited architecture tag,
the two per-arch bounded-count lists, the unsuccessful-`brk` counter and
the error-message buffer. -/
structure DefaultCallback where
  arch : Int
  limited_i386 : List Pair
  limited_x86_64 : List Pair
  unsuccessful_SYS_brk_counter : Int
  error_message : String
deriving DecidableEq, Repr

/-- A freshly constructed `DefaultCallback`: `arch = -1` (`sandbox.h:26`),
counters as in the initialisers, `brk` counter `0`, empty message. -/
def DefaultCallback.init : DefaultCallback :=
  { arch := -1
  , limited_i386 := limited_syscalls_i386
  , limited_x86_64 := limited_syscalls_x86_64
  , unsuccessful_SYS_brk_counter := 0
  , error_message := "" }

/-- Member `Sandbox::DefaultCallback::isSyscallIn` (`sandbox.h:488-497`): when
`arch == ARCH_i386` binary-search the i386 list, otherwise (any other tag
value) binary-search the x86_64 list. -/
def isSyscallIn (arch : Int) (syscall : Int)
    (syscall_list_i386 syscall_list_x86_64 : List Int) : Bool :=
  if arch = ARCH_i386 then binary_search syscall_list_i386 syscall
  else binary_search syscall_list_x86_64 syscall

/-- C array subscript `limited_syscalls[arch]` (`sandbox.h:510`):
`limited_syscalls` has exactly two elements, so the access is defined only
for tags `0` and `1`; any other tag is out of bounds (`none`). -/
def DefaultCallback.limitedAt (cb : DefaultCallback) (i : Int) :
    Option (List Pair) :=
  if i = 0 then some cb.limited_i386
  else if i = 1 then some cb.limited_x86_64
  else none

/-- Writing back the bounded-count list selected by `limited_syscalls[i]`
(the in-place `--i.limit` of `sandbox.h:512` mutates the stored vector). -/
def DefaultCallback.setLimitedAt (cb : DefaultCallback) (i : Int)
    (l : List Pair) : DefaultCallback :=
  if i = 0 then { cb with limited_i386 := l }
  else if i = 1 then { cb with limited_x86_64 := l }
  else cb

/-- C array subscript into a two-element `constexpr int` table such as
`sys_open` / `sys_lseek` / `sys_tgkill` (`sandbox.h:514-535`): defined
only for indices `0` and `1`. -/
def idx2 (a b : Int) (i : Int) : Option Int :=
  if i = 0 then some a else if i = 1 then some b else none

/-- The loop `for (Pair& i : limited_syscalls[arch]) if (syscall ==
i.syscall) return (--i.limit >= 0);` (`sandbox.h:510-512`): find the first
pair with this syscall number, decrement its counter in place, and report
whether the decremented counter is still `≥ 0`.  `none` means the loop
fell through (no matching pair). -/
def decLimited : List Pair → Int → Option (Bool × List Pair)
  | [], _ => none
  | p :: rest, s =>
    if s = p.syscall then
      some (decide (p.limit - 1 ≥ 0), ⟨p.syscall, p.limit - 1⟩ :: rest)
    else
      (decLimited rest s).map (fun r => (r.1, p :: r.2))

/-- The outcome of one syscall-entry dispatch of the template
`DefaultCallback::isSyscallEntryAllowed` (`sandbox.h:499-539`): either an
immediate allow/deny, or delegation to one of the three argument-checking
helpers (whose bodies live outside the header). -/
inductive EntryStep where
  | allow
  | deny
  | delegateOpen
  | delegateLseek
  | delegateTgkill
deriving DecidableEq, Repr

/-- The template `DefaultCallback::isSyscallEntryAllowed`
(`sandbox.h:499-539`) applied to the two embedded allow-lists
(`sandbox.h:147-303`), up to the three delegation points.  `none` models
an out-of-bounds C array subscript on the architecture tag (possible only
when the tag is neither `0` nor `1`). -/
def isSyscallEntryAllowedStep (cb : DefaultCallback) (syscall : Int) :
    Option (EntryStep × DefaultCallback) :=
  if isSyscallIn cb.arch syscall allowed_syscalls_i386 allowed_syscalls_x86_64
  then some (.allow, cb)
  else match cb.limitedAt cb.arch with
  | none => none
  | some lst =>
    match decLimited lst syscall with
    | some (ok, lst2) =>
      some (if ok then .allow else .deny, cb.setLimitedAt cb.arch lst2)
    | none =>
      match idx2 5 2 cb.arch with
      | none => none
      | some sys_open =>
        if syscall = sys_open then some (.delegateOpen, cb)
        else match idx2 19 8 cb.arch with
        | none => none
        | some sys_lseek =>
          if syscall = sys_lseek ∨ (cb.arch = ARCH_i386 ∧ syscall = 140)
          then some (.delegateLseek, cb)
          else match idx2 270 234 cb.arch with
          | none => none
          | some sys_tgkill =>
            if syscall = sys_tgkill then some (.delegateTgkill, cb)
            else some (.deny, cb)

/-- Constant `DefaultCallback::UNSUCCESSFUL_SYS_BRK_LIMIT` (`sandbox.h:130`). -/
def UNSUCCESSFUL_SYS_BRK_LIMIT : Int := 128

/-- Modelled from the spec: the body of
`DefaultCallback::isSyscallExitAllowed` (declared at `sandbox.h:314`) is
not under `src/`.  Spec §4.7: "Only `brk` (i386 #45 / x86_64 #12) is
inspected: if the return value equals the requested argument (the kernel
signals `brk` failure by returning the old break), increment the
unsuccessful counter; if the counter exceeds 128, Deny with message
`\x22brk failed too many times\x22`. All other syscalls return Allow." -/
def isSyscallExitAllowedModel (cb : DefaultCallback)
    (syscall retval arg1 : Int) : Bool × DefaultCallback :=
  let sys_brk : Int := if cb.arch = ARCH_i386 then 45 else 12
  if syscall = sys_brk then
    if retval = arg1 then
      let c := cb.unsuccessful_SYS_brk_counter + 1
      let cb2 := { cb with unsuccessful_SYS_brk_counter := c }
      if c > UNSUCCESSFUL_SYS_BRK_LIMIT then
        (false, { cb2 with error_message := "brk failed too many times" })
      else (true, cb2)
    else (true, cb)
  else (true, cb)

/-! ### Signal numbers (Linux, x86) used by the supervisor -/

def SIGTRAP : Nat := 5
def SIGKILL : Nat := 9
def SIGSTOP : Nat := 19
def SIGCONT : Nat := 18
/-- Value `SIGTRAP | 0x80`, the stop signal marking a syscall stop under
`PTRACE_O_TRACESYSGOOD` (`sandbox.h:638`). -/
def SIGTRAP_80 : Nat := SIGTRAP ||| 0x80

/-- The decoded view of a `waitpid` status word, as the supervisor
consumes it through `WIFSTOPPED` / `WIFEXITED` / `WIFSIGNALED` and
`WSTOPSIG` (`sandbox.h:636-654`). -/
inductive WaitStatus where
  | stopped (sig : Nat)
  | exited (code : Nat)
  | signaled (sig : Nat)
deriving DecidableEq, Repr

/-- The action the `wait_for_syscall` loop takes on one consumed
`waitpid` result (`sandbox.h:629-656`). -/
inductive WaitAction where
  /-- returned `0`: the tracee is at a syscall stop -/
  | syscallStop
  /-- `SIGSTOP` / `SIGTRAP` / `SIGCONT`: swallowed, tracee resumed by the
  next `PTRACE_SYSCALL` without re-injection -/
  | swallow (sig : Nat)
  /-- any other stop signal: re-injected via `PTRACE_CONT` -/
  | reinject (sig : Nat)
  /-- `WIFEXITED` / `WIFSIGNALED`: the loop returns `-1` -/
  | traceeDead
deriving DecidableEq, Repr

/-- What `wait_for_syscall` reports to its caller. -/
inductive WaitOutcome where
  /-- returned `0`: in a syscall -/
  | inSyscall
  /-- returned `-1`: the tracee is dead (and now waited), with the
  terminal status left in `status` -/
  | dead (status : WaitStatus)
deriving DecidableEq, Repr

/-- The lambda `wait_for_syscall` (`sandbox.h:629-656`), driven by the
sequence of `waitpid` results the kernel will deliver: produces the list
of actions taken, and — unless the oracle runs out, which models a loop
that keeps waiting — the outcome together with the unconsumed rest of
the oracle. -/
def wait_for_syscall :
    List WaitStatus → List WaitAction × Option (WaitOutcome × List WaitStatus)
  | [] => ([], none)
  | w :: rest =>
    match w with
    | .stopped sig =>
      if sig = SIGTRAP_80 then ([.syscallStop], some (.inSyscall, rest))
      else if sig = SIGSTOP ∨ sig = SIGTRAP ∨ sig = SIGCONT then
        let r := wait_for_syscall rest
        (.swallow sig :: r.1, r.2)
      else
        let r := wait_for_syscall rest
        (.reinject sig :: r.1, r.2)
    | .exited c => ([.traceeDead], some (.dead (.exited c), rest))
    | .signaled sg => ([.traceeDead], some (.dead (.signaled sg), rest))

/-- Function `detectArchitecture` (`src/src/process.cc:126-147`): open
`/proc/<pid>/exe`, seek to offset 4, read one byte; `1` → `ARCH_i386`,
`2` → `ARCH_x86_64`, anything else throws "Unsupported architecture".
The executable file is modelled by its byte list; a failed 1-byte read
(file shorter than 5 bytes) throws "read()".  `THROW` messages are
modelled by their literal first argument (the macro of `debug.h:22`
appends a " (thrown at file:line)" suffix to every message). -/
def detectArchitecture (exe : List Nat) : Except String Int :=
  match exe.get? 4 with
  | none => .error "read()"
  | some c =>
    if c = 1 then .ok ARCH_i386
    else if c = 2 then .ok ARCH_x86_64
    else .error "Unsupported architecture"

/-- Modelled from the spec: the per-architecture syscall-name table
`x86_syscall_name` lives in `syscall_name.h`, which is not under `src/`.
The spec names only `socket` (i386 #102) among i386 entries (§8,
scenario 2); every number the spec does not name maps to the empty
string, which is how the table reports an absent entry
(`sandbox.h:799`: "Syscall not found"). -/
def x86_syscall_name (syscall : Int) : String :=
  if syscall = 102 then "socket" else ""

/-- Modelled from the spec: the x86_64 syscall-name table
`x86_64_syscall_name` from `syscall_name.h` (not under `src/`); the spec
names `socket` (#41) and `execve` (#59) (§8, scenarios 2 and 6). -/
def x86_64_syscall_name (syscall : Int) : String :=
  if syscall = 41 then "socket"
  else if syscall = 59 then "execve"
  else ""

/-- The not-allowed-syscall message computation of
`Sandbox::Impl::execute` (`sandbox.h:793-803`): the callback's message
when non-empty; otherwise "forbidden syscall N: name()" when the
per-arch name table has a name for `N`, and "forbidden syscall N" when
it does not.  The table is selected by `func.getArch() == ARCH_i386`, so
any other tag selects the x86_64 table. -/
def forbiddenMessage (archTag syscall_no : Int) (errMsg : String) : String :=
  if errMsg = "" then
    let name :=
      (if archTag = ARCH_i386 then x86_syscall_name else x86_64_syscall_name)
        syscall_no
    if name = "" then "forbidden syscall " ++ toString syscall_no
    else "forbidden syscall " ++ toString syscall_no ++ ": " ++ name ++ "()"
  else errMsg

/-! ### The supervisor `Sandbox::Impl::execute` (`sandbox.h:541-808`)

The supervisor is modelled as a state-passing function driven by oracles
for everything the kernel decides: the first `waitpid` result, the
outcome of each `wait_for_syscall` call, the syscall number `PTRACE_PEEKUSER`
returns at each entry stop, the `/proc/<pid>/statm` samples, and the
tracing faults (exceptions) an iteration may raise. -/

/-- Error number `ECHILD` (no waitable child). -/
def ECHILD : Int := 10

/-- The kernel-side lifecycle of the tracee as far as zombie accounting
goes: it is alive (running or ptrace-stopped) until the supervisor has
collected its terminal status with a blocking `wait`, after which it is
reaped (no zombie remains). -/
inductive TraceeState where
  | alive
  | reaped (status : WaitStatus)
deriving DecidableEq, Repr

/-- Result of `waitpid(pid, nullptr, WNOHANG)` on the tracee after the
run, as a `(return value, errno)` pair: an already-reaped child yields
`-1` with `ECHILD`; an alive one yields `0`. -/
def waitpid_WNOHANG (t : TraceeState) : Int × Int :=
  match t with
  | .reaped _ => (-1, ECHILD)
  | .alive => (0, 0)

/-- Structure `Spawner::ExitStat` — the verdict record.  Modelled from the
spec (spawner.h is not under `src/`): section 6 gives the record as
`(status, runtime_us, vm_peak bytes, message)`; the status is kept in
its decoded `wait(2)` view. -/
structure ExitStat where
  status : WaitStatus
  runtime : Nat
  vm_peak : Nat
  message : String
deriving DecidableEq, Repr

/-- Modelled from the spec: `receiveErrorMessage` (spawner.h, not under
`src/`) — "if the child's error-channel pipe carried a frame, that frame;
else empty". -/
def receiveErrorMessage (frame : Option String) : String :=
  frame.getD ""

/-- The interface through which `execute` uses its template parameter
`Callback` (`sandbox.h:541-544`): the two decision entry points of
`Sandbox::CallbackBase`, the error message, and the architecture tag
set once by `detectTraceeArchitecture` (`sandbox.h:64-66`). -/
structure CallbackIface (σ : Type) where
  entry : σ → Int → Bool × σ
  exit : σ → Int → Bool × σ
  errorMessage : σ → String
  getArch : σ → Int
  setArch : σ → Int → σ

/-- Events recorded for the ordering claims: the architecture probe, each
syscall-entry policy decision, and each `/proc/<pid>/statm` sample (tagged
with the architecture tag and just-completed syscall that triggered it). -/
inductive LogEv where
  | probe (arch : Int)
  | entry (syscall_no : Int)
  | sample (arch : Int) (syscall_no : Int) (pages : Nat)
deriving DecidableEq, Repr

/-- The oracles and fixed parameters of one `execute` run. -/
structure ExecConfig (σ : Type) where
  /-- the callback object as constructed by the caller -/
  cbInit : σ
  cb : CallbackIface σ
  /-- byte contents of `/proc/<pid>/exe` for the architecture probe -/
  exeBytes : List Nat
  /-- `sysconf(_SC_PAGESIZE)` -/
  pagesize : Nat
  /-- the i-th value `get_vm_size` parses from `/proc/<pid>/statm` -/
  samples : Nat → Nat
  /-- what `timer.stopAndGetRuntime()` reports -/
  runtimeOracle : Nat
  /-- the error frame, if any, the child wrote to the error pipe -/
  pipeFrame : Option String

/-- The mutable supervisor state threaded through the loop of `execute`:
the callback object `func`, the page counter `vm_size`, how many `statm`
samples have been read, the `tracee_is_dead_and_waited` flag, the actual
tracee lifecycle state, the last `waitpid` status, and the event log. -/
structure ExecState (σ : Type) where
  func : σ
  vm_size : Nat
  sampleIdx : Nat
  waited : Bool
  tracee : TraceeState
  status : WaitStatus
  log : List LogEv

/-- How one allowed syscall continues after the supervisor resumed the
tracee and waited for the syscall-exit stop (`sandbox.h:719-720`). -/
inductive ExitPhase where
  /-- `wait_for_syscall` reports the tracee dead with this status -/
  | deadAtExit (status : WaitStatus)
  /-- the syscall completed; the tracee is at its syscall-exit stop -/
  | completed
deriving DecidableEq, Repr

/-- One iteration of the outer `for (;;)` loop of `execute`
(`sandbox.h:658-807`), as decided by the kernel-side oracles. -/
inductive IterEvent where
  /-- the entry `wait_for_syscall` reports the tracee dead -/
  | deadAtEntry (status : WaitStatus)
  /-- an entry syscall-stop is reached and `PTRACE_PEEKUSER` reads this
  (non-negative) syscall number -/
  | stop (syscall_no : Int) (after : ExitPhase)
  /-- a tracing call fails this iteration, raising an exception inside
  the `try` block (e.g. `PTRACE_PEEKUSER` returning a negative value,
  `sandbox.h:683-685`); `esrch` tells whether the probe in the catch
  block (`sandbox.h:762-765`) finds the tracee no longer controllable,
  in which case the reaping `waitpid` loop observes `status` -/
  | fault (esrch : Bool) (status : WaitStatus)
deriving DecidableEq, Repr

/-- How the modelled `execute` ends. -/
inductive RunResult where
  /-- a return through `exit_normally` (`sandbox.h:659-667`) or the
  early pre-`exec`-death return (`sandbox.h:574`) -/
  | normal (es : ExitStat)
  /-- a return through the not-allowed-syscall block (`sandbox.h:780-806`) -/
  | denial (es : ExitStat)
  /-- an exception propagated out of `execute` -/
  | raised (msg : String)
deriving DecidableEq, Repr

/-- The lambda `exit_normally` (`sandbox.h:659-667`): stop the timer and
build the verdict from the current `status`, `vm_size` (converted to
bytes) and, when the status word is non-zero, the error-pipe frame. -/
def exit_normally (cfg : ExecConfig σ) (s : ExecState σ) : ExitStat :=
  if s.status ≠ .exited 0 then
    { status := s.status, runtime := cfg.runtimeOracle
    , vm_peak := s.vm_size * cfg.pagesize
    , message := receiveErrorMessage cfg.pipeFrame }
  else
    { status := s.status, runtime := cfg.runtimeOracle
    , vm_peak := s.vm_size * cfg.pagesize, message := "" }

/-- The not-allowed-syscall block (`sandbox.h:780-806`): stop the timer,
`SIGKILL` the tracee — which is alive in a ptrace stop here, so the
`waitpid` loop collects death by `SIGKILL` — and build the verdict with
the `forbiddenMessage` computation. -/
def denialReturn (cfg : ExecConfig σ) (s : ExecState σ) (syscall_no : Int) :
    Option RunResult × ExecState σ :=
  let st : WaitStatus := .signaled SIGKILL
  let s2 := { s with waited := true, tracee := .reaped st, status := st }
  let message :=
    forbiddenMessage (cfg.cb.getArch s2.func) syscall_no
      (cfg.cb.errorMessage s2.func)
  (some (.denial
    { status := st, runtime := cfg.runtimeOracle
    , vm_peak := s2.vm_size * cfg.pagesize, message := message }), s2)

/-- The i386 / x86_64 address-space-changing syscall sets of the
`vm_size` monitor (`sandbox.h:725-736`); the set is selected by
`func.getArch() == ARCH_i386`, so any other tag selects the x86_64 set. -/
def vmSet (archTag : Int) : List Int :=
  if archTag = ARCH_i386 then [45, 90, 163, 192] else [9, 12, 25]

/-- Appending the syscall-entry record to the event log (the model
observer for the `PTRACE_PEEKUSER` + policy-consultation point,
`sandbox.h:674-717`). -/
def logEntry (syscall_no : Int) (s : ExecState σ) : ExecState σ :=
  { s with log := s.log ++ [LogEv.entry syscall_no] }

/-- Replacing the callback object after it made a (possibly
state-mutating) decision. -/
def setFunc (f : σ) (s : ExecState σ) : ExecState σ :=
  { s with func := f }

/-- A blocking `waitpid` observed the tracee terminal status `st`: the
tracee is reaped, `tracee_is_dead_and_waited` is set, and `status` holds
the status word (`sandbox.h:651-653`). -/
def markDead (st : WaitStatus) (s : ExecState σ) : ExecState σ :=
  { s with waited := true, tracee := .reaped st, status := st }

/-- The `vm_size` monitoring step of one completed syscall
(`sandbox.h:724-739`): when the just-completed syscall is in the
architecture's address-space set, seek-and-read `/proc/<pid>/statm`
(consuming the next sample of the oracle) and retain the maximum. -/
def doSample (cfg : ExecConfig σ) (syscall_no : Int) (s : ExecState σ) :
    ExecState σ :=
  let archTag := cfg.cb.getArch s.func
  if syscall_no ∈ vmSet archTag then
    let v := cfg.samples s.sampleIdx
    { s with
      vm_size := max s.vm_size v
      sampleIdx := s.sampleIdx + 1
      log := s.log ++ [LogEv.sample archTag syscall_no v] }
  else s

/-- The outer `for (;;)` loop of `execute` (`sandbox.h:658-807`), one
`IterEvent` per iteration.  `none` models a run whose oracle list ended
while the loop would still be iterating. -/
def execLoop (cfg : ExecConfig σ) :
    List IterEvent → ExecState σ → Option RunResult × ExecState σ
  | [], s => (none, s)
  | ev :: rest, s =>
    match ev with
    | .deadAtEntry st =>
      (some (.normal (exit_normally cfg (markDead st s))), markDead st s)
    | .fault esrch st =>
      if esrch then
        (some (.normal (exit_normally cfg (markDead st s))), markDead st s)
      else
        (some (.raised "tracing failure"), s)
    | .stop syscall_no after =>
      let ed := cfg.cb.entry s.func syscall_no
      let s2 := setFunc ed.2 (logEntry syscall_no s)
      if ed.1 then
        match after with
        | .deadAtExit st =>
          (some (.normal (exit_normally cfg (markDead st s2))),
            markDead st s2)
        | .completed =>
          let s3 := doSample cfg syscall_no s2
          let xd := cfg.cb.exit s3.func syscall_no
          let s4 := setFunc xd.2 s3
          if xd.1 then execLoop cfg rest s4
          else denialReturn cfg s4 syscall_no
      else denialReturn cfg s2 syscall_no

/-- The `kill_and_wait_tracee` guard (`sandbox.h:576-585`), run by
`CallInDtor` on every scope exit of `execute` — both returns and
exception unwinding: if the tracee has not been waited yet it is alive,
so `SIGKILL` it and perform the final blocking `wait`. -/
def applyGuard (s : ExecState σ) : ExecState σ :=
  if s.waited then s
  else { s with waited := true, tracee := .reaped (.signaled SIGKILL) }

/-- The result of the first `waitpid` after `fork` (`sandbox.h:571`). -/
inductive InitEvent where
  /-- the child terminated before its initial stop (pre-`exec` failure) -/
  | childDied (status : WaitStatus)
  /-- the child reached its initial `SIGSTOP` trap -/
  | childStopped
deriving DecidableEq, Repr

/-- Leaving the scope of `execute` after the loop produced a result:
when the loop returned or threw (`some`), the `CallInDtor` guard runs;
when the oracle ran out (`none`, a model artifact for a still-running
loop), nothing has been left yet. -/
def finishRun (t : Option RunResult × ExecState σ) :
    Option RunResult × ExecState σ :=
  match t.1 with
  | none => t
  | some res => (some res, applyGuard t.2)

/-- The supervisor state at the top of the syscall-stop loop, just after
the guard was installed, the architecture probe stored its result in the
callback (`sandbox.h:597`) — the probe event heads the log — the `statm`
descriptor was opened and the timer started: nothing sampled yet, the
tracee alive in its initial stop. -/
def initialLoopState (cfg : ExecConfig σ) (a : Int) : ExecState σ :=
  { func := cfg.cb.setArch cfg.cbInit a
    vm_size := 0
    sampleIdx := 0
    waited := false
    tracee := .alive
    status := .stopped SIGSTOP
    log := [LogEv.probe a] }

/-- Model of `Sandbox::Impl::execute` (`sandbox.h:541-808`): the initial
blocking `wait` with its early return (the child reaped by that wait),
installation of the kill-and-wait guard, the architecture probe
`func.detectTraceeArchitecture` — whose failure propagates through the
guard — then the syscall-stop loop; the guard runs on every return and
on every propagated exception. -/
def Sandbox_execute (cfg : ExecConfig σ) (init : InitEvent)
    (events : List IterEvent) : Option RunResult × ExecState σ :=
  match init with
  | .childDied st =>
    (some (.normal
      { status := st
        runtime := 0
        vm_peak := 0
        message := receiveErrorMessage cfg.pipeFrame }),
      { func := cfg.cbInit
        vm_size := 0
        sampleIdx := 0
        waited := true
        tracee := .reaped st
        status := st
        log := [] })
  | .childStopped =>
    match detectArchitecture cfg.exeBytes with
    | .error m =>
      (some (.raised m),
        applyGuard
          { func := cfg.cbInit
            vm_size := 0
            sampleIdx := 0
            waited := false
            tracee := .alive
            status := .stopped SIGSTOP
            log := [] })
    | .ok a => finishRun (execLoop cfg events (initialLoopState cfg a))

/-- A minimal concrete callback object used to evaluate the supervisor
model on closed inputs (the `Callback` template parameter of `execute`
can be any class derived from `Sandbox::CallbackBase`): its state is the
architecture tag, entry allows exactly the syscalls of `allowed`, exits
are always allowed, and `errorMessage()` constantly returns `err`. -/
def testCallback (allowed : List Int) (err : String) : CallbackIface Int :=
  { entry := fun a s => (decide (s ∈ allowed), a)
  , exit := fun a _ => (true, a)
  , errorMessage := fun _ => err
  , getArch := fun a => a
  , setArch := fun _ a => a }

/-! ### Helper lemmas about the bounded-count loop -/

theorem decLimited_eq_none_of_not_mem (l : List Pair) (s : Int)
    (h : ∀ p ∈ l, s ≠ p.syscall) : decLimited l s = none := by
  induction l with
  | nil => rfl
  | cons p rest ih =>
    simp only [decLimited]
    rw [if_neg (h p (by simp)), ih (fun q hq => h q (by simp [hq]))]
    rfl

theorem decLimited_append (l1 : List Pair) (p : Pair) (l2 : List Pair)
    (s : Int) (hp : p.syscall = s) (h : ∀ q ∈ l1, s ≠ q.syscall) :
    decLimited (l1 ++ p :: l2) s =
      some (decide (p.limit - 1 ≥ 0), l1 ++ ⟨p.syscall, p.limit - 1⟩ :: l2) := by
  induction l1 with
  | nil => simp [decLimited, hp]
  | cons q rest ih =>
    simp only [List.cons_append, decLimited]
    rw [if_neg (h q (by simp))]
    simp only [List.append_eq]
    rw [ih (fun r hr => h r (by simp [hr]))]
    rfl

/-! ### Claims about the policy engine -/

/-- C1: the per-architecture unconditional allow-lists embedded in
`DefaultCallback::isSyscallEntryAllowed` are bit-exact the arrays of
section 6 of the spec — 78 entries for i386, 64 for x86_64 — both sorted
ascending, and every syscall number in the array of the current
architecture tag is allowed at step 1, with the callback state returned
untouched (no counter is consulted, nothing is delegated to an argument
check). -/
theorem C1_allow_lists (cb : DefaultCallback) :
    allowed_syscalls_i386 = spec_allow_i386 ∧
    allowed_syscalls_x86_64 = spec_allow_x86_64 ∧
    allowed_syscalls_i386.length = 78 ∧
    allowed_syscalls_x86_64.length = 64 ∧
    is_sorted allowed_syscalls_i386 = true ∧
    is_sorted allowed_syscalls_x86_64 = true ∧
    (cb.arch = ARCH_i386 → ∀ s ∈ allowed_syscalls_i386,
      isSyscallEntryAllowedStep cb s = some (.allow, cb)) ∧
    (cb.arch = ARCH_x86_64 → ∀ s ∈ allowed_syscalls_x86_64,
      isSyscallEntryAllowedStep cb s = some (.allow, cb)) := by
  refine ⟨by decide, by decide, by decide, by decide, by decide, by decide,
    ?_, ?_⟩
  · intro ha s hs
    have hb : binary_search allowed_syscalls_i386 s = true :=
      (by decide :
        ∀ x ∈ allowed_syscalls_i386,
          binary_search allowed_syscalls_i386 x = true) s hs
    have hin : isSyscallIn cb.arch s allowed_syscalls_i386
        allowed_syscalls_x86_64 = true := by
      rw [isSyscallIn, ha, if_pos rfl]; exact hb
    simp [isSyscallEntryAllowedStep, hin]
  · intro ha s hs
    have hb : binary_search allowed_syscalls_x86_64 s = true :=
      (by decide :
        ∀ x ∈ allowed_syscalls_x86_64,
          binary_search allowed_syscalls_x86_64 x = true) s hs
    have hin : isSyscallIn cb.arch s allowed_syscalls_i386
        allowed_syscalls_x86_64 = true := by
      rw [isSyscallIn, ha, if_neg (by decide)]; exact hb
    simp [isSyscallEntryAllowedStep, hin]

/-- Witness for C1: `brk` (45) on an i386-tagged callback is allowed at
step 1 with the state untouched. -/
theorem C1_allow_lists_witness :
    isSyscallEntryAllowedStep { DefaultCallback.init with arch := ARCH_i386 }
      45 = some (.allow, { DefaultCallback.init with arch := ARCH_i386 }) :=
  (C1_allow_lists { DefaultCallback.init with arch := ARCH_i386
    }).2.2.2.2.2.2.1 rfl 45 (by decide)

/-- The dispatch table for a syscall that is neither allow-listed nor a
bounded-count entry, written from the spec text of §4.7 steps 3-6: `open`
(i386 #5 / x86_64 #2) → the open check; `lseek` (i386 #19 / x86_64 #8)
and, on i386 only, `_llseek` (#140) → the lseek check; `tgkill`
(i386 #270 / x86_64 #234) → the tgkill check; every other number →
Deny. -/
def specDispatch (arch s : Int) : EntryStep :=
  if s = (if arch = ARCH_i386 then 5 else 2) then .delegateOpen
  else if s = (if arch = ARCH_i386 then 19 else 8) ∨
      (arch = ARCH_i386 ∧ s = 140) then .delegateLseek
  else if s = (if arch = ARCH_i386 then 270 else 234) then .delegateTgkill
  else .deny

/-- C2: for a syscall not in the architecture's allow-list and not
matching any bounded-count entry, the entry decision dispatches exactly
per `specDispatch`: open (5/2) to the open check, lseek (19/8, plus 140
on i386 only) to the lseek check, tgkill (270/234) to the tgkill check,
and denies everything else — with the callback state untouched. -/
theorem C2_dispatch (cb : DefaultCallback) (s : Int) (l : List Pair)
    (harch : cb.arch = ARCH_i386 ∨ cb.arch = ARCH_x86_64)
    (hnotin : isSyscallIn cb.arch s allowed_syscalls_i386
      allowed_syscalls_x86_64 = false)
    (hl : cb.limitedAt cb.arch = some l)
    (hnl : ∀ p ∈ l, s ≠ p.syscall) :
    isSyscallEntryAllowedStep cb s = some (specDispatch cb.arch s, cb) := by
  have hd : decLimited l s = none := decLimited_eq_none_of_not_mem l s hnl
  rcases harch with h | h <;>
    (simp only [isSyscallEntryAllowedStep]
     rw [h] at hnotin hl
     rw [h]
     simp only [hnotin, Bool.false_eq_true, if_false, hl, hd]
     norm_num [specDispatch, idx2, ARCH_i386, ARCH_x86_64]
     try split_ifs <;> rfl)

/-- Witness for C2: `open` (#2) on an x86_64-tagged callback is
delegated to the open check. -/
theorem C2_dispatch_witness :
    isSyscallEntryAllowedStep { DefaultCallback.init with arch := ARCH_x86_64 }
        2 =
      some (specDispatch
        ({ DefaultCallback.init with arch := ARCH_x86_64 } :
          DefaultCallback).arch 2, { DefaultCallback.init with
            arch := ARCH_x86_64 }) :=
  C2_dispatch { DefaultCallback.init with arch := ARCH_x86_64 } 2
    limited_syscalls_x86_64 (Or.inr rfl) (by decide) (by decide) (by decide)

/-- Boolean check that a freshly-constructed callback with tag `a`
allows the first occurrence of syscall `n` and denies the second. -/
def firstSecondCheck (a n : Int) : Bool :=
  match isSyscallEntryAllowedStep { DefaultCallback.init with arch := a } n
  with
  | some (.allow, cb2) =>
    match isSyscallEntryAllowedStep cb2 n with
    | some (.deny, _) => true
    | _ => false
  | _ => false

/-- C3: a syscall not in the allow-list that matches a bounded-count
entry is allowed exactly when the matched counter is positive (the
counter is decremented in place, per `--i.limit >= 0`), and denied
otherwise; the initial counters are all exactly 1 for the listed numbers
(i386: 11, 33, 85, 122, 243; x86_64: 21, 59, 63, 89, 158, 205), so the
first occurrence of each such syscall is allowed and the second is
denied. -/
theorem C3_bounded_count :
    (∀ (cb : DefaultCallback) (s : Int) (l1 : List Pair) (p : Pair)
        (l2 : List Pair),
      (cb.arch = ARCH_i386 ∨ cb.arch = ARCH_x86_64) →
      isSyscallIn cb.arch s allowed_syscalls_i386 allowed_syscalls_x86_64 =
        false →
      cb.limitedAt cb.arch = some (l1 ++ p :: l2) →
      p.syscall = s →
      (∀ q ∈ l1, s ≠ q.syscall) →
      isSyscallEntryAllowedStep cb s =
        some ((if 0 < p.limit then EntryStep.allow else EntryStep.deny),
          cb.setLimitedAt cb.arch (l1 ++ ⟨p.syscall, p.limit - 1⟩ :: l2))) ∧
    (∀ p ∈ limited_syscalls_i386, p.limit = 1) ∧
    (∀ p ∈ limited_syscalls_x86_64, p.limit = 1) ∧
    limited_syscalls_i386.map Pair.syscall = [11, 33, 85, 122, 243] ∧
    limited_syscalls_x86_64.map Pair.syscall = [21, 59, 63, 89, 158, 205] ∧
    (∀ a ∈ [ARCH_i386, ARCH_x86_64],
      ∀ p ∈ (if a = ARCH_i386 then limited_syscalls_i386
        else limited_syscalls_x86_64),
        firstSecondCheck a p.syscall = true) := by
  refine ⟨?_, by decide, by decide, by decide, by decide, by decide⟩
  intro cb s l1 p l2 harch hnotin hl hp hq
  have hd := decLimited_append l1 p l2 s hp hq
  by_cases hpl : 0 < p.limit
  · have hge : p.limit - 1 ≥ 0 := by omega
    simp only [isSyscallEntryAllowedStep, hnotin, Bool.false_eq_true,
      if_false, hl, hd]
    simp [hge, hpl]
  · have hge : ¬(p.limit - 1 ≥ 0) := by omega
    simp only [isSyscallEntryAllowedStep, hnotin, Bool.false_eq_true,
      if_false, hl, hd]
    simp [hge, hpl]

/-- Witness for C3: `execve` (#59) on a fresh x86_64-tagged callback —
matched with counter 1, hence allowed with the counter decremented to 0. -/
theorem C3_bounded_count_witness :
    isSyscallEntryAllowedStep { DefaultCallback.init with arch := ARCH_x86_64 }
        59 =
      some (EntryStep.allow,
        ({ DefaultCallback.init with arch := ARCH_x86_64 } :
          DefaultCallback).setLimitedAt ARCH_x86_64
          ([⟨21, 1⟩] ++ ⟨59, 0⟩ :: [⟨63, 1⟩, ⟨89, 1⟩, ⟨158, 1⟩, ⟨205, 1⟩])) := by
  have h := C3_bounded_count.1
    { DefaultCallback.init with arch := ARCH_x86_64 } 59
    [⟨21, 1⟩] ⟨59, 1⟩ [⟨63, 1⟩, ⟨89, 1⟩, ⟨158, 1⟩, ⟨205, 1⟩]
    (Or.inr rfl) (by decide) (by decide) rfl (by decide)
  simpa using h

/-- C4: the syscall-exit decision inspects only `brk` (i386 #45 /
x86_64 #12): an exit whose return value equals the requested argument
increments
the unsuccessful-`brk` counter and is denied — with message "brk failed
too many times" — exactly when the counter then exceeds the ceiling 128;
every other exit (other syscall, or `brk` with a different return value)
is allowed with the state untouched. -/
theorem C4_sys_exit_brk (cb : DefaultCallback) (syscall retval arg1 : Int)
    (harch : cb.arch = ARCH_i386 ∨ cb.arch = ARCH_x86_64) :
    (syscall ≠ (if cb.arch = ARCH_i386 then 45 else 12) →
      isSyscallExitAllowedModel cb syscall retval arg1 = (true, cb)) ∧
    (syscall = (if cb.arch = ARCH_i386 then 45 else 12) → retval ≠ arg1 →
      isSyscallExitAllowedModel cb syscall retval arg1 = (true, cb)) ∧
    (syscall = (if cb.arch = ARCH_i386 then 45 else 12) → retval = arg1 →
      (isSyscallExitAllowedModel cb syscall retval
          arg1).2.unsuccessful_SYS_brk_counter =
        cb.unsuccessful_SYS_brk_counter + 1 ∧
      ((isSyscallExitAllowedModel cb syscall retval arg1).1 = true ↔
        cb.unsuccessful_SYS_brk_counter + 1 ≤ UNSUCCESSFUL_SYS_BRK_LIMIT) ∧
      ((isSyscallExitAllowedModel cb syscall retval arg1).1 = false →
        (isSyscallExitAllowedModel cb syscall retval arg1).2.error_message =
          "brk failed too many times")) := by
  refine ⟨?_, ?_, ?_⟩
  · intro hne
    rw [isSyscallExitAllowedModel, if_neg hne]
  · intro heq hne
    rw [isSyscallExitAllowedModel, if_pos heq, if_neg hne]
  · intro heq hra
    by_cases hc :
      cb.unsuccessful_SYS_brk_counter + 1 > UNSUCCESSFUL_SYS_BRK_LIMIT
    · rw [isSyscallExitAllowedModel, if_pos heq, if_pos hra, if_pos hc]
      refine ⟨rfl, ?_, fun _ => rfl⟩
      simp only [Bool.false_eq_true, false_iff]
      omega
    · rw [isSyscallExitAllowedModel, if_pos heq, if_pos hra, if_neg hc]
      refine ⟨rfl, ?_, fun h => by cases h⟩
      simp only [true_iff]
      omega

/-- Witness for C4: a 129th unsuccessful `brk` exit (counter already at
128) on an x86_64-tagged callback is denied with the `brk` message. -/
theorem C4_sys_exit_brk_witness :
    (isSyscallExitAllowedModel
      { DefaultCallback.init with
        arch := ARCH_x86_64
        unsuccessful_SYS_brk_counter := 128 } 12 7000 7000).1 = false ∧
    (isSyscallExitAllowedModel
      { DefaultCallback.init with
        arch := ARCH_x86_64
        unsuccessful_SYS_brk_counter := 128 } 12 7000
        7000).2.error_message = "brk failed too many times" := by
  have h := (C4_sys_exit_brk
    { DefaultCallback.init with
      arch := ARCH_x86_64
      unsuccessful_SYS_brk_counter := 128 } 12 7000 7000
    (Or.inr rfl)).2.2 (by decide) rfl
  refine ⟨?_, ?_⟩
  · have := h.2.1
    by_cases hb : (isSyscallExitAllowedModel
      { DefaultCallback.init with
        arch := ARCH_x86_64
        unsuccessful_SYS_brk_counter := 128 } 12 7000 7000).1 = true
    · exact absurd ((this).mp hb) (by decide)
    · simpa using hb
  · exact h.2.2 (by decide)

/-- C8: classification of every tracee stop consumed by the
`wait_for_syscall` loop: a stop with `SIGTRAP | 0x80` returns control to
the policy step; a stop with `SIGSTOP`, `SIGTRAP` or `SIGCONT` is
swallowed (not re-injected) and the loop resumes the tracee; a stop with
any other signal is resumed via `PTRACE_CONT` re-injecting that same
signal; an exit or signal-death status terminates the loop, marking the
tracee dead and waited. -/
theorem C8_wait_loop_classification :
    (∀ rest, wait_for_syscall (.stopped SIGTRAP_80 :: rest) =
      ([.syscallStop], some (.inSyscall, rest))) ∧
    (∀ sig rest, (sig = SIGSTOP ∨ sig = SIGTRAP ∨ sig = SIGCONT) →
      wait_for_syscall (.stopped sig :: rest) =
        (WaitAction.swallow sig :: (wait_for_syscall rest).1,
          (wait_for_syscall rest).2)) ∧
    (∀ sig rest, sig ≠ SIGTRAP_80 →
      ¬(sig = SIGSTOP ∨ sig = SIGTRAP ∨ sig = SIGCONT) →
      wait_for_syscall (.stopped sig :: rest) =
        (WaitAction.reinject sig :: (wait_for_syscall rest).1,
          (wait_for_syscall rest).2)) ∧
    (∀ c rest, wait_for_syscall (.exited c :: rest) =
      ([.traceeDead], some (.dead (.exited c), rest))) ∧
    (∀ sg rest, wait_for_syscall (.signaled sg :: rest) =
      ([.traceeDead], some (.dead (.signaled sg), rest))) := by
  refine ⟨fun rest => ?_, fun sig rest h => ?_, fun sig rest h1 h2 => ?_,
    fun c rest => rfl, fun sg rest => rfl⟩
  · simp [wait_for_syscall]
  · have hne : sig ≠ SIGTRAP_80 := by
      rcases h with h | h | h <;> rw [h] <;> decide
    rw [wait_for_syscall, if_neg hne, if_pos h]
  · rw [wait_for_syscall, if_neg h1, if_neg h2]

/-- Witness for C8: a `SIGSTOP` stop (signal 19) is swallowed; a
`SIGUSR1` stop (signal 10) is re-injected. -/
theorem C8_wait_loop_classification_witness :
    wait_for_syscall [.stopped SIGSTOP] =
      (WaitAction.swallow SIGSTOP :: (wait_for_syscall []).1,
        (wait_for_syscall []).2) ∧
    wait_for_syscall [.stopped 10] =
      (WaitAction.reinject 10 :: (wait_for_syscall []).1,
        (wait_for_syscall []).2) :=
  ⟨C8_wait_loop_classification.2.1 SIGSTOP [] (Or.inl rfl),
    C8_wait_loop_classification.2.2.1 10 [] (by decide) (by decide)⟩

/-- C10 (counterexample): a policy decision made with the unset
architecture tag `-1` is not classified against the x86_64 tables:
syscall 21 (`access`, an x86_64 bounded-count entry) has a defined
outcome when the tag is 1, but with the tag still `-1` the bounded-count
lookup `limited_syscalls[arch]` is an out-of-bounds access with no
defined table, so the entry decision has no defined result. -/
theorem C10_pre_probe_cex :
    isSyscallEntryAllowedStep DefaultCallback.init 21 = none ∧
    isSyscallEntryAllowedStep
      { DefaultCallback.init with arch := ARCH_x86_64 } 21 ≠ none ∧
    DefaultCallback.init.limitedAt DefaultCallback.init.arch = none := by
  refine ⟨by decide, by decide, by decide⟩

/-- C10 (amended): in `isSyscallIn` the i386 allow-list is consulted
only when the tag equals 0, and every other tag value — including the
initial `-1` — selects the x86_64 allow-list; the bounded-count list,
however, is obtained by indexing `limited_syscalls` directly with the
tag, which is defined only for tags 0 and 1, so the unset tag `-1` is an
out-of-bounds access rather than a lookup in the x86_64 table. -/
theorem C10_table_selection :
    (∀ a s, a ≠ ARCH_i386 →
      isSyscallIn a s allowed_syscalls_i386 allowed_syscalls_x86_64 =
        binary_search allowed_syscalls_x86_64 s) ∧
    (∀ s, isSyscallIn ARCH_i386 s allowed_syscalls_i386
        allowed_syscalls_x86_64 = binary_search allowed_syscalls_i386 s) ∧
    (∀ cb : DefaultCallback,
      cb.limitedAt ARCH_i386 = some cb.limited_i386 ∧
      cb.limitedAt ARCH_x86_64 = some cb.limited_x86_64 ∧
      (∀ i, i ≠ 0 → i ≠ 1 → cb.limitedAt i = none)) := by
  refine ⟨fun a s ha => ?_, fun s => ?_, fun cb => ⟨rfl, rfl, ?_⟩⟩
  · rw [isSyscallIn, if_neg ha]
  · rw [isSyscallIn, if_pos rfl]
  · intro i h0 h1
    rw [DefaultCallback.limitedAt, if_neg h0, if_neg h1]

/-- Witness for C10 (amended): at the unset tag `-1`, `isSyscallIn`
consults the x86_64 allow-list while the bounded-count subscript is out
of bounds. -/
theorem C10_table_selection_witness :
    isSyscallIn (-1) 21 allowed_syscalls_i386 allowed_syscalls_x86_64 =
      binary_search allowed_syscalls_x86_64 21 ∧
    DefaultCallback.init.limitedAt (-1) = none :=
  ⟨C10_table_selection.1 (-1) 21 (by decide),
    (C10_table_selection.2.2 DefaultCallback.init).2.2 (-1) (by decide)
      (by decide)⟩

/-! ### Invariants of the supervisor loop -/

theorem doSample_waited (cfg : ExecConfig σ) (no : Int) (s : ExecState σ) :
    (doSample cfg no s).waited = s.waited := by
  rw [doSample]; split <;> rfl

theorem doSample_tracee (cfg : ExecConfig σ) (no : Int) (s : ExecState σ) :
    (doSample cfg no s).tracee = s.tracee := by
  rw [doSample]; split <;> rfl

theorem doSample_func (cfg : ExecConfig σ) (no : Int) (s : ExecState σ) :
    (doSample cfg no s).func = s.func := by
  rw [doSample]; split <;> rfl

theorem doSample_status (cfg : ExecConfig σ) (no : Int) (s : ExecState σ) :
    (doSample cfg no s).status = s.status := by
  rw [doSample]; split <;> rfl

theorem execLoop_state (cfg : ExecConfig σ) (evs : List IterEvent)
    (s : ExecState σ) :
    ((execLoop cfg evs s).2.waited = true ∧
      ∃ st, (execLoop cfg evs s).2.tracee = .reaped st) ∨
    ((execLoop cfg evs s).2.waited = s.waited ∧
      (execLoop cfg evs s).2.tracee = s.tracee) := by
  induction evs generalizing s with
  | nil => exact Or.inr ⟨rfl, rfl⟩
  | cons ev rest ih =>
    cases ev with
    | deadAtEntry st => exact Or.inl ⟨rfl, st, rfl⟩
    | fault esrch st =>
      cases esrch
      · exact Or.inr ⟨rfl, rfl⟩
      · exact Or.inl ⟨rfl, st, rfl⟩
    | stop no after =>
      cases after with
      | deadAtExit st =>
        simp only [execLoop]
        split
        · exact Or.inl ⟨rfl, st, rfl⟩
        · exact Or.inl ⟨rfl, .signaled SIGKILL, rfl⟩
      | completed =>
        simp only [execLoop]
        split
        · split
          · rcases ih _ with h | h
            · exact Or.inl h
            · exact Or.inr ⟨h.1.trans (doSample_waited cfg no _),
                h.2.trans (doSample_tracee cfg no _)⟩
          · exact Or.inl ⟨rfl, .signaled SIGKILL, rfl⟩
        · exact Or.inl ⟨rfl, .signaled SIGKILL, rfl⟩

/-- The guard leaves a run with no zombie: if the loop state was already
waited-and-reaped the guard is a no-op; otherwise (the tracee still
alive) it kills and reaps. -/
theorem finishRun_no_zombie (t : Option RunResult × ExecState σ)
    (r : RunResult) (h : (finishRun t).1 = some r)
    (hstate : (t.2.waited = true ∧ ∃ st, t.2.tracee = .reaped st) ∨
      (t.2.waited = false ∧ t.2.tracee = .alive)) :
    (∃ st, (finishRun t).2.tracee = .reaped st) ∧
    (finishRun t).2.waited = true ∧
    waitpid_WNOHANG (finishRun t).2.tracee = (-1, ECHILD) := by
  cases ht : t.1 with
  | none =>
    rw [finishRun, ht] at h
    exact absurd h (by rw [ht]; simp)
  | some res =>
    rw [finishRun, ht]
    rcases hstate with ⟨hw, st, htr⟩ | ⟨hw, htr⟩
    · rw [applyGuard, if_pos hw, htr]
      exact ⟨⟨st, rfl⟩, hw, rfl⟩
    · rw [applyGuard, if_neg (by rw [hw]; simp)]
      exact ⟨⟨.signaled SIGKILL, rfl⟩, rfl, rfl⟩

/-- C7: on every exit path of a completed run — normal return, policy
denial, and exception propagation (including loss of tracing control,
the `ESRCH` mid-loop path) — the supervisor has performed a final wait
on the tracee before returning or propagating: the tracee ends reaped,
the `tracee_is_dead_and_waited` flag is set, and a `waitpid` with
`WNOHANG` on its pid yields `-1` with `ECHILD` (no zombie). -/
theorem C7_no_zombie (cfg : ExecConfig σ) (init : InitEvent)
    (evs : List IterEvent) (r : RunResult)
    (h : (Sandbox_execute cfg init evs).1 = some r) :
    (∃ st, (Sandbox_execute cfg init evs).2.tracee = .reaped st) ∧
    (Sandbox_execute cfg init evs).2.waited = true ∧
    waitpid_WNOHANG (Sandbox_execute cfg init evs).2.tracee =
      (-1, ECHILD) := by
  revert h
  unfold Sandbox_execute
  cases init with
  | childDied st => exact fun _ => ⟨⟨st, rfl⟩, rfl, rfl⟩
  | childStopped =>
    cases hda : detectArchitecture cfg.exeBytes with
    | error m => exact fun _ => ⟨⟨.signaled SIGKILL, rfl⟩, rfl, rfl⟩
    | ok a =>
      intro h
      apply finishRun_no_zombie _ r h
      rcases execLoop_state cfg evs _ with hst | hst
      · exact Or.inl hst
      · exact Or.inr ⟨hst.1, hst.2⟩

/-- Projections preserved by the guard: it touches only `waited` and
`tracee`. -/
theorem applyGuard_func (s : ExecState σ) : (applyGuard s).func = s.func := by
  rw [applyGuard]; split <;> rfl

theorem applyGuard_vm (s : ExecState σ) :
    (applyGuard s).vm_size = s.vm_size := by
  rw [applyGuard]; split <;> rfl

theorem applyGuard_log (s : ExecState σ) : (applyGuard s).log = s.log := by
  rw [applyGuard]; split <;> rfl

theorem applyGuard_sampleIdx (s : ExecState σ) :
    (applyGuard s).sampleIdx = s.sampleIdx := by
  rw [applyGuard]; split <;> rfl

theorem finishRun_fst (t : Option RunResult × ExecState σ) :
    (finishRun t).1 = t.1 := by
  rw [finishRun]; split <;> simp_all

theorem finishRun_func (t : Option RunResult × ExecState σ) :
    (finishRun t).2.func = t.2.func := by
  rw [finishRun]; split
  · rfl
  · exact applyGuard_func t.2

theorem finishRun_vm (t : Option RunResult × ExecState σ) :
    (finishRun t).2.vm_size = t.2.vm_size := by
  rw [finishRun]; split
  · rfl
  · exact applyGuard_vm t.2

theorem finishRun_log (t : Option RunResult × ExecState σ) :
    (finishRun t).2.log = t.2.log := by
  rw [finishRun]; split
  · rfl
  · exact applyGuard_log t.2

theorem finishRun_sampleIdx (t : Option RunResult × ExecState σ) :
    (finishRun t).2.sampleIdx = t.2.sampleIdx := by
  rw [finishRun]; split
  · rfl
  · exact applyGuard_sampleIdx t.2

theorem finishRun_of_waited (t : Option RunResult × ExecState σ)
    (h : t.2.waited = true) : (finishRun t).2 = t.2 := by
  rw [finishRun]; split
  · rfl
  · rw [applyGuard, if_pos h]

/-- The concrete configuration used by the closed-run witnesses and
counterexamples: an x86_64 ELF header (class byte 2 at offset 4), page
size 4096, constant `statm` samples of 7 pages, a 55 µs runtime report,
no error-pipe frame, and the minimal test callback allowing syscalls 1
(`write`) and 12 (`brk`) with no error message. -/
def cfgW : ExecConfig Int :=
  { cbInit := -1
  , cb := testCallback [1, 12] ""
  , exeBytes := [127, 69, 76, 70, 2]
  , pagesize := 4096
  , samples := fun _ => 7
  , runtimeOracle := 55
  , pipeFrame := none }

/-- Witness for C7: a run ending in a propagated tracing exception
(an iteration fault with the tracee still controllable) still leaves the
tracee reaped, via the guard. -/
theorem C7_no_zombie_witness :
    (∃ st, (Sandbox_execute cfgW .childStopped
      [.fault false (.exited 0)]).2.tracee = .reaped st) ∧
    (Sandbox_execute cfgW .childStopped
      [.fault false (.exited 0)]).2.waited = true ∧
    waitpid_WNOHANG (Sandbox_execute cfgW .childStopped
      [.fault false (.exited 0)]).2.tracee = (-1, ECHILD) :=
  C7_no_zombie cfgW .childStopped [.fault false (.exited 0)]
    (.raised "tracing failure") (by decide)

/-- The pages values of the `statm` samples recorded in a log. -/
def sampleValues (log : List LogEv) : List Nat :=
  log.filterMap fun e =>
    match e with
    | .sample _ _ v => some v
    | _ => none

theorem sampleValues_append (l1 l2 : List LogEv) :
    sampleValues (l1 ++ l2) = sampleValues l1 ++ sampleValues l2 := by
  simp [sampleValues]

theorem le_foldl_max (l : List Nat) (acc : Nat) : acc ≤ l.foldl max acc := by
  induction l generalizing acc with
  | nil => exact Nat.le_refl acc
  | cons x xs ih => exact Nat.le_trans (Nat.le_max_left acc x) (ih (max acc x))

/-- What one `doSample` step adds: either nothing, or — when the
just-completed syscall is in the arch's address-space set — exactly one
sample entry whose value is folded into the running maximum and which
consumes exactly one `statm` read. -/
theorem doSample_delta (cfg : ExecConfig σ) (no : Int) (s : ExecState σ) :
    ∃ d, (doSample cfg no s).log = s.log ++ d ∧
      (doSample cfg no s).vm_size = (sampleValues d).foldl max s.vm_size ∧
      (doSample cfg no s).sampleIdx = s.sampleIdx + (sampleValues d).length ∧
      (∀ a n v, LogEv.sample a n v ∈ d → n ∈ vmSet a) ∧
      (∀ x, LogEv.probe x ∉ d) ∧
      (∀ n, LogEv.entry n ∉ d) := by
  rw [doSample]
  split
  case isTrue h =>
    refine ⟨[LogEv.sample (cfg.cb.getArch s.func) no
      (cfg.samples s.sampleIdx)], rfl, rfl, rfl, ?_, by simp, by simp⟩
    intro a n v hm
    simp only [List.mem_singleton, LogEv.sample.injEq] at hm
    rw [hm.1, hm.2.1]
    exact h
  case isFalse h =>
    exact ⟨[], by simp, rfl, rfl, by simp, by simp, by simp⟩

/-- The not-allowed-syscall message is never empty: either the callback
left a message, or the built string starts with "forbidden syscall ". -/
theorem forbiddenMessage_ne_empty (a no : Int) (e : String) :
    forbiddenMessage a no e ≠ "" := by
  rw [forbiddenMessage]
  split
  · split <;> (dsimp only; split) <;>
      (intro hc
       have hlen := congrArg String.length hc
       simp only [String.length_append, String.length_empty] at hlen
       have h18 : ("forbidden syscall ").length = 18 := rfl
       omega)
  · assumption

/-- Characterisation of every denial return of the supervisor loop: it
comes from the not-allowed-syscall block, so the status is death by
`SIGKILL`, the tracee is reaped, and the message is the
`forbiddenMessage` computation applied to the denied syscall's number —
the number of the last syscall-entry decision in the log (the sampling
step may append a sample record after it, but never an entry record) —
over the callback state at that point. -/
theorem execLoop_denial (cfg : ExecConfig σ) (evs : List IterEvent)
    (s : ExecState σ) (es : ExitStat)
    (h : (execLoop cfg evs s).1 = some (.denial es)) :
    es.status = .signaled SIGKILL ∧
    (execLoop cfg evs s).2.waited = true ∧
    (execLoop cfg evs s).2.tracee = .reaped (.signaled SIGKILL) ∧
    es.vm_peak = (execLoop cfg evs s).2.vm_size * cfg.pagesize ∧
    ∃ no pre post,
      (execLoop cfg evs s).2.log = pre ++ LogEv.entry no :: post ∧
      (∀ m, LogEv.entry m ∉ post) ∧
      es.message =
        forbiddenMessage (cfg.cb.getArch (execLoop cfg evs s).2.func) no
          (cfg.cb.errorMessage (execLoop cfg evs s).2.func) := by
  induction evs generalizing s with
  | nil => simp [execLoop] at h
  | cons ev rest ih =>
    cases ev with
    | deadAtEntry st => simp [execLoop] at h
    | fault esrch st =>
      cases esrch
      · simp [execLoop] at h
      · simp [execLoop] at h
    | stop no after =>
      cases after with
      | deadAtExit st =>
        revert h
        simp only [execLoop]
        split
        · intro h; simp at h
        · intro h
          simp only [denialReturn, Option.some.injEq,
            RunResult.denial.injEq] at h
          subst h
          exact ⟨rfl, rfl, rfl, rfl, no, s.log, [], rfl, by simp, rfl⟩
      | completed =>
        revert h
        simp only [execLoop]
        split
        · split
          · intro h
            exact ih _ h
          · intro h
            obtain ⟨d, hd1, _hd2, _hd3, _hd4, _hd5, hd6⟩ :=
              doSample_delta cfg no
                (setFunc (cfg.cb.entry s.func no).2 (logEntry no s))
            simp only [denialReturn, Option.some.injEq,
              RunResult.denial.injEq] at h
            subst h
            refine ⟨rfl, rfl, rfl, rfl, no, s.log, d, ?_, hd6, rfl⟩
            show (doSample cfg no (setFunc (cfg.cb.entry s.func no).2
              (logEntry no s))).log = _
            rw [hd1]
            show (s.log ++ [LogEv.entry no]) ++ d = _
            simp
        · intro h
          simp only [denialReturn, Option.some.injEq,
            RunResult.denial.injEq] at h
          subst h
          exact ⟨rfl, rfl, rfl, rfl, no, s.log, [], rfl, by simp, rfl⟩

/-- C5 (counterexample): a run denying syscall 999 — a number with no
entry in the per-arch name table — with an empty callback message yields
the verdict message "forbidden syscall 999", which is not of the claimed
form "forbidden syscall <number>: <name>()" (here that form would be
"forbidden syscall 999: ()", per `sandbox.h:799-802`). -/
theorem C5_message_form_cex :
    (Sandbox_execute cfgW .childStopped [.stop 999 .completed]).1 =
      some (.denial { status := .signaled SIGKILL
                      runtime := 55
                      vm_peak := 0
                      message := "forbidden syscall 999" }) ∧
    "forbidden syscall 999" ≠
      "forbidden syscall 999: " ++ x86_64_syscall_name 999 ++ "()" :=
  ⟨by decide, by decide⟩

/-- C5 (amended): every run that ends because a policy decision (entry
or exit) returned Deny sends the tracee `SIGKILL` and waits until it is
terminated; the verdict status is death by `SIGKILL` and the message is
non-empty — the callback's `errorMessage()` when non-empty, otherwise
"forbidden syscall <number>: <name>()" when the per-arch name table has
a name for the number, and "forbidden syscall <number>" when it does not
(the `forbiddenMessage` computation) — where `<number>` is the denied
syscall's number: the number of the last syscall-entry decision in the
run's log (only a sample record can follow it, never another entry
record). -/
theorem C5_denial_verdict (cfg : ExecConfig σ) (init : InitEvent)
    (evs : List IterEvent) (es : ExitStat)
    (h : (Sandbox_execute cfg init evs).1 = some (.denial es)) :
    es.status = .signaled SIGKILL ∧
    (Sandbox_execute cfg init evs).2.tracee = .reaped (.signaled SIGKILL) ∧
    (Sandbox_execute cfg init evs).2.waited = true ∧
    es.message ≠ "" ∧
    ∃ no pre post,
      (Sandbox_execute cfg init evs).2.log =
        pre ++ LogEv.entry no :: post ∧
      (∀ m, LogEv.entry m ∉ post) ∧
      es.message =
        forbiddenMessage
          (cfg.cb.getArch (Sandbox_execute cfg init evs).2.func) no
          (cfg.cb.errorMessage (Sandbox_execute cfg init evs).2.func) := by
  revert h
  unfold Sandbox_execute
  cases init with
  | childDied st => intro h; simp at h
  | childStopped =>
    cases hda : detectArchitecture cfg.exeBytes with
    | error m => intro h; simp at h
    | ok a =>
      intro h
      obtain ⟨h1, h2w, h3, _h4, no, pre, post, hlog, hpost, h5⟩ :=
        execLoop_denial cfg evs _ es ((finishRun_fst _).symm.trans h)
      have hfr := finishRun_of_waited _ h2w
      rw [hfr]
      refine ⟨h1, h3, h2w, ?_, no, pre, post, hlog, hpost, h5⟩
      rw [h5]
      exact forbiddenMessage_ne_empty _ _ _

/-- Witness for C5 (amended): the syscall-999 denial run — status
death-by-`SIGKILL`, tracee reaped, and the verdict message computed by
`forbiddenMessage` on the very number of the denied entry decision,
which closes the run's log. -/
theorem C5_denial_verdict_witness :
    (Sandbox_execute cfgW .childStopped [.stop 999 .completed]).2.tracee =
      .reaped (.signaled SIGKILL) ∧
    (Sandbox_execute cfgW .childStopped
      [.stop 999 .completed]).2.waited = true ∧
    ∃ no pre post,
      (Sandbox_execute cfgW .childStopped
        [.stop 999 .completed]).2.log = pre ++ LogEv.entry no :: post ∧
      (∀ m, LogEv.entry m ∉ post) ∧
      ExitStat.message
        { status := .signaled SIGKILL
          runtime := 55
          vm_peak := 0
          message := "forbidden syscall 999" } =
        forbiddenMessage
          (cfgW.cb.getArch (Sandbox_execute cfgW .childStopped
            [.stop 999 .completed]).2.func) no
          (cfgW.cb.errorMessage (Sandbox_execute cfgW .childStopped
            [.stop 999 .completed]).2.func) := by
  have h := C5_denial_verdict cfgW .childStopped [.stop 999 .completed]
    { status := .signaled SIGKILL
      runtime := 55
      vm_peak := 0
      message := "forbidden syscall 999" } (by decide)
  exact ⟨h.2.1, h.2.2.1, h.2.2.2.2⟩

/-- The cumulative effect of the supervisor loop on the observables: the
log only grows — by entry records and sample records, never by probe
records — the page counter is the running maximum of the recorded
samples folded onto its starting value, and the number of `statm` reads
equals the number of recorded samples, each of which was taken for a
syscall in the arch's address-space set. -/
theorem execLoop_delta (cfg : ExecConfig σ) (evs : List IterEvent)
    (s : ExecState σ) :
    ∃ extra, (execLoop cfg evs s).2.log = s.log ++ extra ∧
      (execLoop cfg evs s).2.vm_size =
        (sampleValues extra).foldl max s.vm_size ∧
      (execLoop cfg evs s).2.sampleIdx =
        s.sampleIdx + (sampleValues extra).length ∧
      (∀ a n v, LogEv.sample a n v ∈ extra → n ∈ vmSet a) ∧
      (∀ x, LogEv.probe x ∉ extra) := by
  induction evs generalizing s with
  | nil => exact ⟨[], by simp [execLoop], rfl, rfl, by simp, by simp⟩
  | cons ev rest ih =>
    cases ev with
    | deadAtEntry st =>
      exact ⟨[], by simp [execLoop, markDead], rfl, rfl, by simp, by simp⟩
    | fault esrch st =>
      cases esrch
      · exact ⟨[], by simp [execLoop], rfl, rfl, by simp, by simp⟩
      · exact ⟨[], by simp [execLoop, markDead], rfl, rfl, by simp, by simp⟩
    | stop no after =>
      cases after with
      | deadAtExit st =>
        simp only [execLoop]
        split
        · exact ⟨[LogEv.entry no],
            by simp [markDead, setFunc, logEntry], rfl, rfl,
            by simp, by simp⟩
        · exact ⟨[LogEv.entry no],
            by simp [denialReturn, setFunc, logEntry], rfl, rfl,
            by simp, by simp⟩
      | completed =>
        simp only [execLoop]
        split
        · obtain ⟨d, hd1, hd2, hd3, hd4, hd5, hd6⟩ :=
            doSample_delta cfg no
              (setFunc (cfg.cb.entry s.func no).2 (logEntry no s))
          split
          · obtain ⟨e2, he1, he2, he3, he4, he5⟩ :=
              ih (setFunc (cfg.cb.exit
                (doSample cfg no (setFunc (cfg.cb.entry s.func no).2
                  (logEntry no s))).func no).2
                (doSample cfg no (setFunc (cfg.cb.entry s.func no).2
                  (logEntry no s))))
            refine ⟨LogEv.entry no :: (d ++ e2), ?_, ?_, ?_, ?_, ?_⟩
            · rw [he1]
              show (doSample cfg no (setFunc (cfg.cb.entry s.func no).2
                (logEntry no s))).log ++ e2 = _
              rw [hd1]
              show (s.log ++ [LogEv.entry no]) ++ d ++ e2 = _
              simp
            · rw [he2]
              show (sampleValues e2).foldl max
                (doSample cfg no (setFunc (cfg.cb.entry s.func no).2
                  (logEntry no s))).vm_size = _
              rw [hd2]
              show (sampleValues e2).foldl max
                ((sampleValues d).foldl max s.vm_size) = _
              rw [show sampleValues (LogEv.entry no :: (d ++ e2)) =
                sampleValues d ++ sampleValues e2 by simp [sampleValues]]
              rw [List.foldl_append]
            · rw [he3]
              show (doSample cfg no (setFunc (cfg.cb.entry s.func no).2
                  (logEntry no s))).sampleIdx +
                (sampleValues e2).length = _
              rw [hd3]
              rw [show sampleValues (LogEv.entry no :: (d ++ e2)) =
                sampleValues d ++ sampleValues e2 by simp [sampleValues]]
              simp [Nat.add_assoc, setFunc, logEntry]
            · intro a n v hm
              simp only [List.mem_cons, List.mem_append] at hm
              rcases hm with hm | hm | hm
              · cases hm
              · exact hd4 a n v hm
              · exact he4 a n v hm
            · intro x hm
              simp only [List.mem_cons, List.mem_append] at hm
              rcases hm with hm | hm | hm
              · cases hm
              · exact hd5 x hm
              · exact he5 x hm
          · refine ⟨LogEv.entry no :: d, ?_, ?_, ?_, ?_, ?_⟩
            · show (doSample cfg no (setFunc (cfg.cb.entry s.func no).2
                (logEntry no s))).log = _
              rw [hd1]
              simp [setFunc, logEntry]
            · show (doSample cfg no (setFunc (cfg.cb.entry s.func no).2
                (logEntry no s))).vm_size = _
              rw [hd2]
              rfl
            · show (doSample cfg no (setFunc (cfg.cb.entry s.func no).2
                (logEntry no s))).sampleIdx = _
              rw [hd3]
              rfl
            · intro a n v hm
              simp only [List.mem_cons] at hm
              rcases hm with hm | hm
              · cases hm
              · exact hd4 a n v hm
            · intro x hm
              simp only [List.mem_cons] at hm
              rcases hm with hm | hm
              · cases hm
              · exact hd5 x hm
        · exact ⟨[LogEv.entry no],
            by simp [denialReturn, setFunc, logEntry], rfl, rfl,
            by simp, by simp⟩

/-- The page counter never decreases across the loop: it is only ever
updated through `max`. -/
theorem execLoop_vm_mono (cfg : ExecConfig σ) (evs : List IterEvent)
    (s : ExecState σ) : s.vm_size ≤ (execLoop cfg evs s).2.vm_size := by
  obtain ⟨extra, _, h2, _, _, _⟩ := execLoop_delta cfg evs s
  rw [h2]
  exact le_foldl_max _ _

/-- Every verdict the loop returns reports `vm_peak` as the final page
counter times the page size (`sandbox.h:663, 666, 805`). -/
theorem execLoop_verdict_vm (cfg : ExecConfig σ) (evs : List IterEvent)
    (s : ExecState σ) (es : ExitStat)
    (h : (execLoop cfg evs s).1 = some (.normal es) ∨
      (execLoop cfg evs s).1 = some (.denial es)) :
    es.vm_peak = (execLoop cfg evs s).2.vm_size * cfg.pagesize := by
  induction evs generalizing s with
  | nil => rcases h with h | h <;> simp [execLoop] at h
  | cons ev rest ih =>
    cases ev with
    | deadAtEntry st =>
      revert h
      simp only [execLoop]
      intro h
      rcases h with h | h
      · simp only [Option.some.injEq, RunResult.normal.injEq] at h
        subst h
        rw [exit_normally]
        split <;> rfl
      · simp at h
    | fault esrch st =>
      cases esrch
      · revert h
        simp only [execLoop]
        intro h
        rcases h with h | h <;> exact absurd h (by simp)
      · revert h
        simp only [execLoop]
        rw [if_pos trivial]
        intro h
        rcases h with h | h
        · simp only [Option.some.injEq, RunResult.normal.injEq] at h
          subst h
          rw [exit_normally]
          split <;> rfl
        · simp at h
    | stop no after =>
      cases after with
      | deadAtExit st =>
        revert h
        simp only [execLoop]
        split
        · intro h
          rcases h with h | h
          · simp only [Option.some.injEq, RunResult.normal.injEq] at h
            subst h
            rw [exit_normally]
            split <;> rfl
          · simp at h
        · intro h
          rcases h with h | h
          · simp [denialReturn] at h
          · simp only [denialReturn, Option.some.injEq,
              RunResult.denial.injEq] at h
            subst h
            rfl
      | completed =>
        revert h
        simp only [execLoop]
        split
        · split
          · intro h
            exact ih _ h
          · intro h
            rcases h with h | h
            · simp [denialReturn] at h
            · simp only [denialReturn, Option.some.injEq,
                RunResult.denial.injEq] at h
              subst h
              rfl
        · intro h
          rcases h with h | h
          · simp [denialReturn] at h
          · simp only [denialReturn, Option.some.injEq,
              RunResult.denial.injEq] at h
            subst h
            rfl

/-- C6: within one run the VM size is sampled only immediately after a
completed syscall in the arch's address-space set (i386: 45, 90, 163,
192; x86_64: 9, 12, 25) — one `statm` read per such syscall — the
retained page count is the maximum over all samples (hence the counter
is monotonically non-decreasing across the loop), and every verdict's
`vm_peak` equals sampled pages times the page size, with `vm_peak = 0`
when no sample was ever taken. -/
theorem C6_vm_sampling (cfg : ExecConfig σ) (init : InitEvent)
    (evs : List IterEvent) :
    ((Sandbox_execute cfg init evs).2.vm_size =
      (sampleValues (Sandbox_execute cfg init evs).2.log).foldl max 0) ∧
    ((Sandbox_execute cfg init evs).2.sampleIdx =
      (sampleValues (Sandbox_execute cfg init evs).2.log).length) ∧
    (∀ a n v, LogEv.sample a n v ∈ (Sandbox_execute cfg init evs).2.log →
      n ∈ vmSet a) ∧
    (∀ s2 : ExecState σ, s2.vm_size ≤ (execLoop cfg evs s2).2.vm_size) ∧
    (∀ es, ((Sandbox_execute cfg init evs).1 = some (.normal es) ∨
        (Sandbox_execute cfg init evs).1 = some (.denial es)) →
      es.vm_peak = (Sandbox_execute cfg init evs).2.vm_size * cfg.pagesize ∧
      (sampleValues (Sandbox_execute cfg init evs).2.log = [] →
        es.vm_peak = 0)) := by
  unfold Sandbox_execute
  cases init with
  | childDied st =>
    refine ⟨rfl, rfl, ?_, fun s2 => execLoop_vm_mono cfg evs s2, ?_⟩
    · intro a n v hm
      exact absurd hm (List.not_mem_nil _)
    · intro es h
      rcases h with h | h
      · simp only [Option.some.injEq, RunResult.normal.injEq] at h
        subst h
        exact ⟨by simp, fun _ => rfl⟩
      · simp at h
  | childStopped =>
    cases hda : detectArchitecture cfg.exeBytes with
    | error m =>
      refine ⟨rfl, rfl, ?_, fun s2 => execLoop_vm_mono cfg evs s2, ?_⟩
      · intro a n v hm
        exact absurd hm (List.not_mem_nil _)
      · intro es h
        rcases h with h | h <;> simp at h
    | ok a =>
      obtain ⟨extra, h1, h2, h3, h4, h5⟩ :=
        execLoop_delta cfg evs (initialLoopState cfg a)
      have hlog : (finishRun (execLoop cfg evs
          (initialLoopState cfg a))).2.log =
          LogEv.probe a :: extra := by
        rw [finishRun_log, h1]
        rfl
      have hsv : sampleValues (LogEv.probe a :: extra) =
          sampleValues extra := by
        simp [sampleValues]
      refine ⟨?_, ?_, ?_, fun s2 => execLoop_vm_mono cfg evs s2, ?_⟩
      · rw [finishRun_vm, h2, hlog, hsv]
        rfl
      · rw [finishRun_sampleIdx, h3, hlog, hsv]
        simp [initialLoopState]
      · intro a2 n v hm
        rw [hlog] at hm
        rcases List.mem_cons.mp hm with hm | hm
        · cases hm
        · exact h4 a2 n v hm
      · intro es h
        have hvp : es.vm_peak = (finishRun (execLoop cfg evs
            (initialLoopState cfg a))).2.vm_size * cfg.pagesize := by
          rw [finishRun_vm]
          apply execLoop_verdict_vm cfg evs _ es
          rcases h with h | h
          · exact Or.inl ((finishRun_fst _).symm.trans h)
          · exact Or.inr ((finishRun_fst _).symm.trans h)
        refine ⟨hvp, ?_⟩
        intro hempty
        rw [hvp, finishRun_vm, h2]
        rw [hlog, hsv] at hempty
        rw [hempty]
        simp [initialLoopState]

/-- Witness for C6: a run completing an x86_64 `brk` (#12, in the
address-space set) with a 7-page sample and then exiting cleanly reports
`vm_peak = 7 * 4096 = 28672`. -/
theorem C6_vm_sampling_witness :
    ({ status := .exited 0, runtime := 55, vm_peak := 28672
     , message := "" } : ExitStat).vm_peak =
      (Sandbox_execute cfgW .childStopped
        [.stop 12 .completed, .deadAtEntry (.exited 0)]).2.vm_size *
        cfgW.pagesize := by
  have h := (C6_vm_sampling cfgW .childStopped
    [.stop 12 .completed, .deadAtEntry (.exited 0)]).2.2.2.2
    { status := .exited 0, runtime := 55, vm_peak := 28672, message := "" }
    (Or.inl (by decide))
  exact h.1

/-- C9 (counterexample): on a class byte that is neither 1 nor 2 the
probe fails the run with the message "Unsupported architecture"
(`process.cc:146`, capital U; the `THROW` macro further appends a
" (thrown at file:line)" suffix), which is not the claimed exact string
"unsupported architecture". -/
theorem C9_unsupported_message_cex :
    detectArchitecture [127, 69, 76, 70, 3] =
      .error "Unsupported architecture" ∧
    ("Unsupported architecture" : String) ≠ "unsupported architecture" :=
  ⟨rfl, by decide⟩

/-- C9 (amended): the probe reads exactly the byte at offset 4 of the
tracee's executable — byte 1 yields i386, byte 2 yields x86_64, any
other byte fails the run with "Unsupported architecture" (capital U,
decorated by `THROW` with a thrown-at suffix); the probe runs after the
tracee's initial stop (never on the pre-`exec`-death path) and before
the first syscall-entry policy decision: a probe failure propagates
before any entry decision is made, and in every run whose log contains
an entry decision the probe result heads the log. -/
theorem C9_arch_probe :
    (∀ (exe : List Nat) (b : Nat), exe.get? 4 = some b →
      detectArchitecture exe =
        (if b = 1 then .ok ARCH_i386
         else if b = 2 then .ok ARCH_x86_64
         else .error "Unsupported architecture")) ∧
    (∀ (σ : Type) (cfg : ExecConfig σ) (evs : List IterEvent) (m : String),
      detectArchitecture cfg.exeBytes = .error m →
      (Sandbox_execute cfg .childStopped evs).1 = some (.raised m) ∧
      ∀ no, LogEv.entry no ∉ (Sandbox_execute cfg .childStopped evs).2.log) ∧
    (∀ (σ : Type) (cfg : ExecConfig σ) (st : WaitStatus)
        (evs : List IterEvent),
      (Sandbox_execute cfg (.childDied st) evs).2.log = []) ∧
    (∀ (σ : Type) (cfg : ExecConfig σ) (init : InitEvent)
        (evs : List IterEvent) (no : Int),
      LogEv.entry no ∈ (Sandbox_execute cfg init evs).2.log →
      ∃ a extra, (Sandbox_execute cfg init evs).2.log =
          LogEv.probe a :: extra ∧
        detectArchitecture cfg.exeBytes = .ok a ∧
        ∀ x, LogEv.probe x ∉ extra) := by
  refine ⟨?_, ?_, ?_, ?_⟩
  · intro exe b hb
    rw [detectArchitecture, hb]
  · intro σ cfg evs m hm
    constructor
    · unfold Sandbox_execute
      rw [hm]
    · intro no hmem
      revert hmem
      unfold Sandbox_execute
      rw [hm]
      intro hmem
      exact absurd hmem (List.not_mem_nil _)
  · intro σ cfg st evs
    rfl
  · intro σ cfg init evs no hmem
    revert hmem
    unfold Sandbox_execute
    cases init with
    | childDied st =>
      intro hmem
      exact absurd hmem (List.not_mem_nil _)
    | childStopped =>
      cases hda : detectArchitecture cfg.exeBytes with
      | error m =>
        intro hmem
        exact absurd hmem (List.not_mem_nil _)
      | ok a =>
        intro _hmem
        obtain ⟨extra, h1, _h2, _h3, _h4, h5⟩ :=
          execLoop_delta cfg evs (initialLoopState cfg a)
        refine ⟨a, extra, ?_, rfl, h5⟩
        rw [finishRun_log, h1]
        rfl

/-- Witness for C9 (amended): byte 2 maps to x86_64; a class byte of 3
makes the run fail with the raised probe message. -/
theorem C9_arch_probe_witness :
    (detectArchitecture [127, 69, 76, 70, 2] =
      (if (2 : Nat) = 1 then Except.ok ARCH_i386
       else if (2 : Nat) = 2 then Except.ok ARCH_x86_64
       else Except.error "Unsupported architecture")) ∧
    ((Sandbox_execute { cfgW with exeBytes := [127, 69, 76, 70, 3] }
        .childStopped []).1 = some (.raised "Unsupported architecture")) :=
  ⟨C9_arch_probe.1 [127, 69, 76, 70, 2] 2 rfl,
   (C9_arch_probe.2.1 Int { cfgW with exeBytes := [127, 69, 76, 70, 3] }
     [] "Unsupported architecture" rfl).1⟩

end Simlib
